import Mathlib

/-!
Shallow embedding of the tenant-management core
(`core/models.py`, `core/services.py`, `core/billing/electricity.py`,
`core/views.py`, `core/api/api.py`) into Lean 4, used to check the
natural-language specification against the code.

Conventions:
* Python `Decimal` values are modelled as `ℚ`; `Decimal.quantize(0.01, ROUND_HALF_UP)`
  is `roundHalfUp2`.
* Dates are modelled as `(year, month, day)` triples ordered lexicographically,
  which agrees with calendar order on valid dates.
* The Django ORM is modelled as an explicit record `DB` of lists of rows;
  each Django/service operation becomes a function `DB → args → Except Err (DB × result)`.
  `transaction.atomic` corresponds to the `Except` monad: an `error` result
  leaves the caller's `DB` untouched (rollback).
* Typed errors follow the code's raise sites: each `Err` constructor is used
  exactly at the raise it models.
-/

namespace Tenent

/-- Calendar date, lexicographically ordered (`models.DateField`). -/
structure Date where
  year : Int
  month : Int
  day : Int
  deriving DecidableEq, Repr

/-- Strict order on dates (lexicographic; agrees with calendar order). -/
def Date.ltb (a b : Date) : Bool :=
  a.year < b.year ||
    (a.year == b.year &&
      (a.month < b.month || (a.month == b.month && a.day < b.day)))

/-- Non-strict order on dates. -/
def Date.leb (a b : Date) : Bool :=
  a.ltb b || a == b

instance : BEq Date := ⟨fun a b => decide (a = b)⟩

instance : LawfulBEq Date where
  eq_of_beq h := of_decide_eq_true h
  rfl := decide_eq_true rfl

/-- `Decimal.quantize(Decimal('0.01'), rounding=ROUND_HALF_UP)`:
round to two decimal places, ties going away from zero. -/
def roundHalfUp2 (x : ℚ) : ℚ :=
  if x < 0 then -((⌊(-x) * 100 + 1/2⌋ : ℚ) / 100)
  else ((⌊x * 100 + 1/2⌋ : ℚ) / 100)

/-- `Room.STATUS_CHOICES` in `core/models.py`. -/
inductive RoomStatus where
  | vacant
  | occupied
  | maintenance
  deriving DecidableEq, Repr

/-- `Lease.STATUS_CHOICES` in `core/models.py`. -/
inductive LeaseStatus where
  | active
  | ended
  deriving DecidableEq, Repr

/-- `Invoice.TYPE_CHOICES` in `core/models.py`. -/
inductive InvoiceType where
  | rent
  | electricity
  | combined
  deriving DecidableEq, Repr

instance : BEq RoomStatus := ⟨fun a b => decide (a = b)⟩
instance : BEq LeaseStatus := ⟨fun a b => decide (a = b)⟩
instance : BEq InvoiceType := ⟨fun a b => decide (a = b)⟩

instance : LawfulBEq RoomStatus where
  eq_of_beq h := of_decide_eq_true h
  rfl := decide_eq_true rfl

instance : LawfulBEq LeaseStatus where
  eq_of_beq h := of_decide_eq_true h
  rfl := decide_eq_true rfl

instance : LawfulBEq InvoiceType where
  eq_of_beq h := of_decide_eq_true h
  rfl := decide_eq_true rfl

/-- Row of `core.models.Room` (fields the core logic reads). -/
structure Room where
  id : Int
  room_number : String
  status : RoomStatus
  deriving DecidableEq, Repr

/-- Row of `core.models.Tenant` (fields the core logic reads). -/
structure Tenant where
  id : Int
  full_name : String
  deriving DecidableEq, Repr

/-- Row of `core.models.Lease`. -/
structure Lease where
  id : Int
  tenant_id : Int
  room_id : Int
  start_date : Date
  end_date : Option Date
  monthly_rent : ℚ
  deposit : ℚ
  billing_day : Int
  status : LeaseStatus
  deriving DecidableEq, Repr

/-- Row of `core.models.RentPayment`. -/
structure RentPayment where
  id : Int
  lease_id : Int
  paid_on : Date
  amount : ℚ
  method : String
  notes : String
  deriving DecidableEq, Repr

/-- Row of `core.models.MeterReading`. -/
structure MeterReading where
  id : Int
  room_id : Int
  reading_date : Date
  reading_value : ℚ
  deriving DecidableEq, Repr

/-- The `meta` JSON payload stored on invoices, as written by the code paths
modelled here (numeric-or-null values keyed by string). -/
abbrev Meta := List (String × Option ℚ)

/-- Row of `core.models.Invoice`. -/
structure Invoice where
  id : Int
  room_id : Int
  month : Date
  type : InvoiceType
  subtotal : ℚ
  tax : ℚ
  total : ℚ
  meta : Meta
  deriving DecidableEq, Repr

/-- Row of `core.models.InvoiceItem`. -/
structure InvoiceItem where
  id : Int
  invoice_id : Int
  label : String
  qty : ℚ
  rate : ℚ
  amount : ℚ
  deriving DecidableEq, Repr

/-- The relational store: one list per table, plus the parsed
`electricity_rate_per_unit` setting and a fresh-id counter standing for
the autoincrement primary-key sequence. -/
structure DB where
  rooms : List Room
  tenants : List Tenant
  leases : List Lease
  payments : List RentPayment
  readings : List MeterReading
  invoices : List Invoice
  invoice_items : List InvoiceItem
  rate : ℚ
  next_id : Int
  deriving Repr

/-- Typed errors; each constructor models one family of raise sites
(messages are carried verbatim from the source). -/
inductive Err where
  | validation (msg : String)
  | conflict (msg : String)
  | invalidState (msg : String)
  | notFound (msg : String)
  deriving DecidableEq, Repr

/-- `compute_units` in `core/billing/electricity.py`:
zero when either reading is absent, else the delta, raising on a
negative delta. -/
def compute_units (previous current : Option ℚ) : Except String ℚ :=
  match previous with
  | none => .ok 0
  | some p =>
    match current with
    | none => .ok 0
    | some c =>
      if c - p < 0 then
        .error "Negative delta: current reading cannot be less than previous reading"
      else
        .ok (c - p)

/-- Result shape of `compute_bill`. -/
structure BillDetails where
  units : ℚ
  rate : ℚ
  total : ℚ
  deriving DecidableEq, Repr

/-- `compute_bill` in `core/billing/electricity.py`. -/
def compute_bill (previous current : Option ℚ) (rate : ℚ) :
    Except String BillDetails :=
  match compute_units previous current with
  | .error e => .error e
  | .ok units => .ok ⟨units, rate, roundHalfUp2 (units * rate)⟩

/-- `date(year, month, 1)` as used in the billing code. -/
def first_of_month (year month : Int) : Date := ⟨year, month, 1⟩

/-- First day of the following month (`get_month_readings`). -/
def first_of_next_month (year month : Int) : Date :=
  if month == 12 then ⟨year + 1, 1, 1⟩ else ⟨year, month + 1, 1⟩

/-- `.order_by('-reading_date').first()` on a filtered queryset: the row with
the latest `reading_date` (first in list order among equal dates, which cannot
occur for one room thanks to the unique `(room, reading_date)` constraint). -/
def latestReading (rs : List MeterReading) : Option MeterReading :=
  rs.foldl
    (fun acc r =>
      match acc with
      | none => some r
      | some b => if b.reading_date.ltb r.reading_date then some r else some b)
    none

/-- `get_month_readings` in `core/billing/electricity.py`: previous = latest
reading strictly before the first of the month, current = latest reading
inside the month. -/
def get_month_readings (db : DB) (room_id year month : Int) :
    Option ℚ × Option ℚ :=
  let fom := first_of_month year month
  let fonm := first_of_next_month year month
  let prev := latestReading
    (db.readings.filter fun r => r.room_id == room_id && r.reading_date.ltb fom)
  let curr := latestReading
    (db.readings.filter fun r =>
      r.room_id == room_id && fom.leb r.reading_date && r.reading_date.ltb fonm)
  (prev.map (·.reading_value), curr.map (·.reading_value))

/-- Result dict of `calc_month_bill` (the display-only `'room'` and `'month'`
string entries are kept as the numeric year/month they are formatted from). -/
structure BillResult where
  room_id : Int
  year : Int
  month : Int
  previous_reading : Option ℚ
  current_reading : Option ℚ
  units : ℚ
  rate : ℚ
  total : ℚ
  error : Option String
  deriving DecidableEq, Repr

/-- `calc_month_bill` in `core/billing/electricity.py`: raises (`Except.error`)
only when the room does not exist; a negative meter delta is returned as a
zero bill with an embedded `error` entry instead of raising. -/
def calc_month_bill (db : DB) (room_id year month : Int) :
    Except Err BillResult :=
  match db.rooms.find? (fun r => r.id == room_id) with
  | none =>
    .error (.notFound ("Room with id " ++ toString room_id ++ " does not exist"))
  | some _room =>
    let pc := get_month_readings db room_id year month
    let rate := db.rate
    match compute_bill pc.1 pc.2 rate with
    | .error e => .ok ⟨room_id, year, month, pc.1, pc.2, 0, rate, 0, some e⟩
    | .ok bd => .ok ⟨room_id, year, month, pc.1, pc.2, bd.units, bd.rate, bd.total, none⟩

/-! ### Model-layer operations (`core/models.py`) -/

/-- Python truthiness of an optional Decimal: `None` and `Decimal('0')`
are falsy. -/
def truthy (x : Option ℚ) : Bool :=
  match x with
  | none => false
  | some v => v != 0

/-- Update the status of the room with the given id
(`room.status = st; room.save()`). -/
def setRoomStatus (db : DB) (room_id : Int) (st : RoomStatus) : DB :=
  { db with
    rooms := db.rooms.map fun r =>
      if r.id == room_id then { r with status := st } else r }

/-- Status of the room with the given id, if it exists. -/
def roomStatus (db : DB) (room_id : Int) : Option RoomStatus :=
  (db.rooms.find? (fun r => r.id == room_id)).map (·.status)

/-- `Lease.clean` in `core/models.py`. `isNew` models `self.pk` being unset
(the instance has not been persisted yet). -/
def Lease.clean (db : DB) (l : Lease) (isNew : Bool) : Except Err Unit :=
  if (match l.end_date with
      | some e => e.leb l.start_date
      | none => false) then
    .error (.validation "End date must be after start date.")
  else if l.status == .active && isNew then
    if db.leases.any (fun x => x.room_id == l.room_id && x.status == .active) then
      .error (.validation "This room already has an active lease.")
    else
      .ok ()
  else if l.status == .active && !isNew then
    if db.leases.any (fun x =>
        x.room_id == l.room_id && x.status == .active && x.id != l.id) then
      .error (.validation "This room already has another active lease.")
    else
      .ok ()
  else
    .ok ()

/-- `Lease.save` in `core/models.py`: runs `clean`, flips the room status
(occupied for a new active lease, vacant for a persisted ended lease), then
inserts or updates the row. -/
def Lease.save (db : DB) (l : Lease) (isNew : Bool) : Except Err DB :=
  match Lease.clean db l isNew with
  | .error e => .error e
  | .ok _ =>
    let db1 :=
      if l.status == .active && isNew then setRoomStatus db l.room_id .occupied
      else if l.status == .ended && !isNew then setRoomStatus db l.room_id .vacant
      else db
    if isNew then
      .ok { db1 with leases := db1.leases ++ [l] }
    else
      .ok { db1 with
            leases := db1.leases.map fun x => if x.id == l.id then l else x }

/-- The store produced by `Lease.save` for a persisted (`isNew = false`)
ended lease whose `clean` passes: room set vacant, row updated in place. -/
def endedSaveResult (db : DB) (l : Lease) : DB :=
  { setRoomStatus db l.room_id RoomStatus.vacant with
    leases := db.leases.map fun x => if x.id == l.id then l else x }

/-- `Lease.objects.create(...)`: build a row with a fresh primary key and
insert it through `Lease.save`. -/
def leaseObjectsCreate (db : DB) (tenant_id room_id : Int) (start_date : Date)
    (monthly_rent deposit : ℚ) (billing_day : Int) (status : LeaseStatus) :
    Except Err (DB × Lease) :=
  let l : Lease :=
    ⟨db.next_id, tenant_id, room_id, start_date, none, monthly_rent, deposit,
      billing_day, status⟩
  match Lease.save { db with next_id := db.next_id + 1 } l true with
  | .error e => .error e
  | .ok db1 => .ok (db1, l)

/-- `Invoice.objects.create(...)`, honouring the `(room, month, type)`
uniqueness constraint of `core.models.Invoice.Meta`. -/
def invoiceObjectsCreate (db : DB) (room_id : Int) (month : Date)
    (ty : InvoiceType) (subtotal tax total : ℚ) (meta : Meta) :
    Except Err (DB × Invoice) :=
  if db.invoices.any (fun i =>
      i.room_id == room_id && i.month == month && i.type == ty) then
    .error (.conflict "UNIQUE constraint failed: core_invoice (room, month, type)")
  else
    let inv : Invoice := ⟨db.next_id, room_id, month, ty, subtotal, tax, total, meta⟩
    .ok ({ db with invoices := db.invoices ++ [inv], next_id := db.next_id + 1 }, inv)

/-- `InvoiceItem.objects.create(...)`. -/
def invoiceItemCreate (db : DB) (invoice_id : Int) (label : String)
    (qty rate amount : ℚ) : DB × InvoiceItem :=
  let it : InvoiceItem := ⟨db.next_id, invoice_id, label, qty, rate, amount⟩
  ({ db with invoice_items := db.invoice_items ++ [it], next_id := db.next_id + 1 },
    it)

/-- `strftime('%B')`: English month name. -/
def monthName (m : Int) : String :=
  if m == 1 then "January"
  else if m == 2 then "February"
  else if m == 3 then "March"
  else if m == 4 then "April"
  else if m == 5 then "May"
  else if m == 6 then "June"
  else if m == 7 then "July"
  else if m == 8 then "August"
  else if m == 9 then "September"
  else if m == 10 then "October"
  else if m == 11 then "November"
  else if m == 12 then "December"
  else ""

/-- `strftime('%B %Y')` on a date. -/
def monthYearStr (d : Date) : String :=
  monthName d.month ++ " " ++ toString d.year

/-- `str(...)` of a Decimal value (rendering detail only; no claim inspects
the digits). -/
def decStr (q : ℚ) : String := toString q

/-- Two-digit zero-padded rendering used by `%m` / `{month:02d}`. -/
def pad2 (n : Int) : String :=
  if 0 ≤ n && n < 10 then "0" ++ toString n else toString n

/-- `"YYYY-MM"` month string. -/
def monthStr (year month : Int) : String :=
  toString year ++ "-" ++ pad2 month

/-! ### Service layer (`core/services.py`) -/

/-- `LeaseService.create_lease`. The caller hands the service a `Room`
instance; here the room is fetched by id (`notFound` models the caller's
`get_object_or_404`). The conflicting-active-lease raise
(`services.py:54`) is the spec's `ConflictError`. -/
def create_lease (db : DB) (tenant_id room_id : Int) (start_date : Date)
    (monthly_rent deposit : ℚ) (billing_day : Int) :
    Except Err (DB × Lease) :=
  match db.rooms.find? (fun r => r.id == room_id) with
  | none => .error (.notFound "No Room matches the given query.")
  | some room =>
    match db.leases.find? (fun l => l.room_id == room_id && l.status == .active) with
    | some existing_active =>
      let tenant_name :=
        match db.tenants.find? (fun t => t.id == existing_active.tenant_id) with
        | some t => t.full_name
        | none => ""
      .error (.conflict
        ("Room " ++ room.room_number ++ " already has an active lease with "
          ++ tenant_name))
    | none =>
      if monthly_rent ≤ 0 then
        .error (.validation "Monthly rent must be positive")
      else if !(1 ≤ billing_day && billing_day ≤ 28) then
        .error (.validation "Billing day must be between 1 and 28")
      else
        match leaseObjectsCreate db tenant_id room_id start_date monthly_rent
            deposit billing_day .active with
        | .error e => .error e
        | .ok (db1, lease) =>
          let db2 := setRoomStatus db1 room_id .occupied
          let current_month : Date := ⟨start_date.year, start_date.month, 1⟩
          match invoiceObjectsCreate db2 room_id current_month .rent
              monthly_rent 0 monthly_rent [("rent", some monthly_rent)] with
          | .error e => .error e
          | .ok (db3, inv) =>
            let db4 := (invoiceItemCreate db3 inv.id
              ("Rent for " ++ monthYearStr current_month)
              1 monthly_rent monthly_rent).1
            .ok (db4, lease)

/-- `LeaseService.end_lease`. The `"Lease is not active"` raise
(`services.py:122`) is the spec's `InvalidStateError`; the date raise
(`services.py:125`) its `ValidationError`. -/
def end_lease (db : DB) (lease_id : Int) (end_date : Date) :
    Except Err (DB × Lease) :=
  match db.leases.find? (fun l => l.id == lease_id) with
  | none => .error (.notFound "No Lease matches the given query.")
  | some lease =>
    if lease.status != .active then
      .error (.invalidState "Lease is not active")
    else if end_date.ltb lease.start_date then
      .error (.validation "End date cannot be before start date")
    else
      let ended := { lease with status := LeaseStatus.ended, end_date := some end_date }
      match Lease.save db ended false with
      | .error e => .error e
      | .ok db1 => .ok (setRoomStatus db1 lease.room_id .vacant, ended)

/-- The `electricity_amount` local of `create_monthly_invoice`:
`units × rate` when `electricity_units and electricity_rate` is truthy,
else the initial `Decimal('0')`. -/
def electricityAmount (electricity_units electricity_rate : Option ℚ) : ℚ :=
  if truthy electricity_units && truthy electricity_rate then
    electricity_units.getD 0 * electricity_rate.getD 0
  else 0

/-- `InvoiceService.create_monthly_invoice`. Python's
`if electricity_units and electricity_rate` is the `truthy` test. -/
def create_monthly_invoice (db : DB) (room_id : Int) (month : Date)
    (rent_amount : ℚ) (electricity_units electricity_rate : Option ℚ) :
    Except Err (DB × Invoice) :=
  let electricity_amount := electricityAmount electricity_units electricity_rate
  let subtotal := rent_amount + electricity_amount
  let meta : Meta :=
    [("rent", some rent_amount),
     ("units", electricity_units),
     ("rate", if truthy electricity_rate then electricity_rate else none),
     ("electricity_total", some electricity_amount)]
  match invoiceObjectsCreate db room_id month .rent subtotal 0 subtotal meta with
  | .error e => .error e
  | .ok (db1, inv) =>
    let db2 := (invoiceItemCreate db1 inv.id
      ("Rent for " ++ monthYearStr month) 1 rent_amount rent_amount).1
    let db3 :=
      if 0 < electricity_amount then
        (invoiceItemCreate db2 inv.id
          ("Electricity (" ++ decStr (electricity_units.getD 0) ++ " units)")
          (electricity_units.getD 0) (electricity_rate.getD 0)
          electricity_amount).1
      else db2
    .ok (db3, inv)

/-! ### View layer (`core/views.py`, `core/api/api.py`) -/

/-- JSON payload returned by `generate_electricity_invoice`. -/
structure ElecInvoiceResponse where
  message : String
  invoice_id : Int
  deriving DecidableEq, Repr

/-- `generate_electricity_invoice` in `core/views.py` (the API twin
`electricity_invoice_create` follows the same logic). An already-existing
`(room, month, electricity)` invoice is returned as-is; an embedded billing
error aborts with a 400 response, modelled as `Err.validation`. -/
def generate_electricity_invoice (db : DB) (room_id year month : Int) :
    Except Err (DB × ElecInvoiceResponse) :=
  match db.rooms.find? (fun r => r.id == room_id) with
  | none => .error (.notFound "No Room matches the given query.")
  | some _room =>
    let fom := first_of_month year month
    match db.invoices.find? (fun i =>
        i.room_id == room_id && i.month == fom && i.type == .electricity) with
    | some existing => .ok (db, ⟨"Invoice already exists", existing.id⟩)
    | none =>
      match calc_month_bill db room_id year month with
      | .error e => .error e
      | .ok bill =>
        match bill.error with
        | some e => .error (.validation e)
        | none =>
          let meta : Meta :=
            [("previous_reading",
               if truthy bill.previous_reading then bill.previous_reading else none),
             ("current_reading",
               if truthy bill.current_reading then bill.current_reading else none),
             ("units", some bill.units),
             ("rate", some bill.rate)]
          match invoiceObjectsCreate db room_id fom .electricity
              bill.total 0 bill.total meta with
          | .error e => .error e
          | .ok (db1, inv) =>
            let label :=
              "Electricity (" ++ monthStr year month ++ "): prev "
                ++ (if truthy bill.previous_reading then
                      decStr (bill.previous_reading.getD 0) else "N/A")
                ++ ", curr "
                ++ (if truthy bill.current_reading then
                      decStr (bill.current_reading.getD 0) else "N/A")
                ++ ", units " ++ decStr bill.units
                ++ " @ ₹" ++ decStr bill.rate
            let db2 := (invoiceItemCreate db1 inv.id label
              bill.units bill.rate bill.total).1
            .ok (db2, ⟨"Invoice created successfully", inv.id⟩)

/-- `update_lease_tenant` in `core/views.py`: load the lease, look up the
posted tenant, reassign and `lease.save()` (a missing tenant id only flashes
a message and redirects, leaving the store untouched). -/
def update_lease_tenant (db : DB) (lease_id : Int) (tenant_id : Option Int) :
    Except Err DB :=
  match db.leases.find? (fun l => l.id == lease_id) with
  | none => .error (.notFound "No Lease matches the given query.")
  | some lease =>
    match tenant_id with
    | none => .ok db
    | some tid =>
      match db.tenants.find? (fun t => t.id == tid) with
      | none => .ok db
      | some _tenant => Lease.save db { lease with tenant_id := tid } false

/-- Badge values computed by `get_room_finance_snapshot`. -/
inductive Badge where
  | vacant
  | maintenance
  | ok
  | dueSoon
  | overdue
  deriving DecidableEq, Repr

/-- `Invoice.objects.filter(room=room).order_by('-month')` then `[0]`:
the invoice with the latest month (first in row order among equal months). -/
def last_invoice_for (db : DB) (room_id : Int) : Option Invoice :=
  (db.invoices.filter fun i => i.room_id == room_id).foldl
    (fun acc i =>
      match acc with
      | none => some i
      | some b => if b.month.ltb i.month then some i else some b)
    none

/-- The snapshot's payment probe: some `RentPayment` of the lease has
`paid_on` in the same calendar month as the invoice's month. -/
def payment_exists (db : DB) (lease_id : Int) (invoice_month : Date) : Bool :=
  db.payments.any fun p =>
    p.lease_id == lease_id
      && p.paid_on.year == invoice_month.year
      && p.paid_on.month == invoice_month.month

/-- `invoice.month + relativedelta(days=5)`: since `invoice.month` is always
a first-of-month date, this is day 6 of the same month, so plain
day-arithmetic is exact here. -/
def due_date_of (invoice_month : Date) : Date :=
  ⟨invoice_month.year, invoice_month.month, invoice_month.day + 5⟩

/-- `due_date - timedelta(days=3)`: day 3 of the same month for the dates
that occur here, so plain day-arithmetic is exact. -/
def minus3days (d : Date) : Date :=
  ⟨d.year, d.month, d.day - 3⟩

/-- Badge computation of `get_room_finance_snapshot` in `core/views.py`
(`today` is the view's `timezone.now().date()`, the spec's `referenceDate`).
`none` when the room id does not resolve. -/
def compute_room_badge (db : DB) (room_id : Int) (today : Date) :
    Option Badge :=
  match db.rooms.find? (fun r => r.id == room_id) with
  | none => none
  | some room =>
    match db.leases.find? (fun l => l.room_id == room_id && l.status == .active) with
    | none =>
      if room.status == .maintenance then some .maintenance else some .vacant
    | some active_lease =>
      match last_invoice_for db room_id with
      | none => some .ok
      | some last_invoice =>
        if payment_exists db active_lease.id last_invoice.month then some .ok
        else if (due_date_of last_invoice.month).ltb today then some .overdue
        else if (minus3days (due_date_of last_invoice.month)).ltb today then
          some .dueSoon
        else some .ok

/-! ### System invariant and reachable states -/

/-- Number of leases with `status=active` referencing the given room. -/
def activeCount (db : DB) (room_id : Int) : Nat :=
  db.leases.countP fun l => l.room_id == room_id && l.status == LeaseStatus.active

/-- The spec's occupancy invariant: at most one active lease per room. -/
def activeLeaseInvariant (db : DB) : Prop :=
  ∀ room_id : Int, activeCount db room_id ≤ 1

/-- Primary keys of lease rows are pairwise distinct (autoincrement pk). -/
def leaseIdsNodup (db : DB) : Prop :=
  (db.leases.map (·.id)).Nodup

/-- Every persisted lease pk is below the autoincrement counter. -/
def leaseIdsFresh (db : DB) : Prop :=
  ∀ l ∈ db.leases, l.id < db.next_id

/-- Well-formedness carried through the reachability induction. -/
def WF (db : DB) : Prop :=
  leaseIdsNodup db ∧ leaseIdsFresh db ∧ activeLeaseInvariant db

/-- One successful core operation of the system, as a relation on stores.
`nonLease` covers every operation that does not touch the lease table
(room/tenant/reading CRUD, invoice and payment creation, ...); such
operations may only advance the pk counter. -/
inductive Step : DB → DB → Prop where
  | createLease (db : DB) (tenant_id room_id : Int) (start_date : Date)
      (monthly_rent deposit : ℚ) (billing_day : Int) (db' : DB) (l : Lease) :
      create_lease db tenant_id room_id start_date monthly_rent deposit billing_day
        = .ok (db', l) →
      Step db db'
  | endLease (db : DB) (lease_id : Int) (end_date : Date) (db' : DB) (l : Lease) :
      end_lease db lease_id end_date = .ok (db', l) →
      Step db db'
  | saveNew (db : DB) (tenant_id room_id : Int) (start_date : Date)
      (monthly_rent deposit : ℚ) (billing_day : Int) (status : LeaseStatus)
      (db' : DB) (l : Lease) :
      leaseObjectsCreate db tenant_id room_id start_date monthly_rent deposit
          billing_day status
        = .ok (db', l) →
      Step db db'
  | saveExisting (db : DB) (l : Lease) (db' : DB) :
      l.id ∈ db.leases.map (·.id) →
      Lease.save db l false = .ok db' →
      Step db db'
  | updateTenant (db : DB) (lease_id : Int) (tenant_id : Option Int) (db' : DB) :
      update_lease_tenant db lease_id tenant_id = .ok db' →
      Step db db'
  | nonLease (db db' : DB) :
      db'.leases = db.leases →
      db.next_id ≤ db'.next_id →
      Step db db'

/-- States reachable from a store with no lease rows yet through successful
core operations. -/
inductive Reachable : DB → Prop where
  | init (db : DB) : db.leases = [] → Reachable db
  | step (db db' : DB) : Reachable db → Step db db' → Reachable db'

/-- The store seen by the caller after a `create_lease` request:
`transaction.atomic` rolls the store back on error. -/
def runCreateLease (db : DB) (tenant_id room_id : Int) (start_date : Date)
    (monthly_rent deposit : ℚ) (billing_day : Int) : DB :=
  match create_lease db tenant_id room_id start_date monthly_rent deposit billing_day with
  | .ok (db', _) => db'
  | .error _ => db

/-- The store seen by the caller after a `generate_electricity_invoice`
request (rollback on error). -/
def runGenerateElectricityInvoice (db : DB) (room_id year month : Int) : DB :=
  match generate_electricity_invoice db room_id year month with
  | .ok (db', _) => db'
  | .error _ => db

/-! ### Concrete stores used to instantiate the theorems -/

/-- Fresh store: one vacant room, one tenant, no leases. -/
def c1db0 : DB := ⟨[⟨1, "101", .vacant⟩], [⟨5, "Asha"⟩], [], [], [], [], [], 10, 1⟩

/-- The created active lease of the C1 scenario. -/
def c1lease : Lease := ⟨1, 5, 1, ⟨2024, 1, 1⟩, none, 100, 0, 1, .active⟩

/-- Store after `create_lease c1db0 5 1 ⟨2024,1,1⟩ 100 0 1`. -/
def c1db1 : DB :=
  ⟨[⟨1, "101", .occupied⟩], [⟨5, "Asha"⟩], [c1lease], [], [],
   [⟨2, 1, ⟨2024, 1, 1⟩, .rent, 100, 0, 100, [("rent", some 100)]⟩],
   [⟨3, 2, "Rent for " ++ monthYearStr ⟨2024, 1, 1⟩, 1, 100, 100⟩], 10, 4⟩

/-- Store with meter readings going down (100 then 90): negative delta. -/
def c2db : DB :=
  ⟨[⟨1, "101", .vacant⟩], [], [], [],
   [⟨1, 1, ⟨2024, 1, 15⟩, 100⟩, ⟨2, 1, ⟨2024, 2, 10⟩, 90⟩], [], [], 21/2, 10⟩

/-- An active lease starting 2024-01-10 on room 1. -/
def c3lease : Lease := ⟨1, 5, 1, ⟨2024, 1, 10⟩, none, 100, 0, 1, .active⟩

/-- Store with one occupied room holding `c3lease`. -/
def c3db : DB :=
  ⟨[⟨1, "101", .occupied⟩], [⟨5, "Asha"⟩], [c3lease], [], [], [], [], 10, 20⟩

/-- Store with a room and no invoices yet. -/
def c4db : DB := ⟨[⟨1, "101", .vacant⟩], [], [], [], [], [], [], 10, 30⟩

/-- Store after `create_monthly_invoice c4db 1 ⟨2024,2,1⟩ 100 (some 50) (some 10)`. -/
def c4inv : Invoice :=
  ⟨30, 1, ⟨2024, 2, 1⟩, .rent, 600, 0, 600,
   [("rent", some 100), ("units", some 50), ("rate", some 10),
    ("electricity_total", some 500)]⟩

/-- Resulting store of the C4 scenario. -/
def c4db' : DB :=
  ⟨[⟨1, "101", .vacant⟩], [], [], [], [], [c4inv],
   [⟨31, 30, "Rent for " ++ monthYearStr ⟨2024, 2, 1⟩, 1, 100, 100⟩,
    ⟨32, 30, "Electricity (" ++ decStr 50 ++ " units)", 50, 10, 500⟩], 10, 33⟩

/-- Store with readings 100 and 150 and rate 10, no invoices. -/
def c5db : DB :=
  ⟨[⟨1, "101", .vacant⟩], [], [], [],
   [⟨1, 1, ⟨2024, 1, 15⟩, 100⟩, ⟨2, 1, ⟨2024, 2, 15⟩, 150⟩], [], [], 10, 10⟩

/-- Store after the first `generate_electricity_invoice c5db 1 2024 2`. -/
def c5db1 : DB :=
  ⟨[⟨1, "101", .vacant⟩], [], [], [],
   [⟨1, 1, ⟨2024, 1, 15⟩, 100⟩, ⟨2, 1, ⟨2024, 2, 15⟩, 150⟩],
   [⟨10, 1, ⟨2024, 2, 1⟩, .electricity, 500, 0, 500,
     [("previous_reading", some 100), ("current_reading", some 150),
      ("units", some 50), ("rate", some 10)]⟩],
   [⟨11, 10,
     "Electricity (" ++ monthStr 2024 2 ++ "): prev " ++ decStr 100
       ++ ", curr " ++ decStr 150 ++ ", units " ++ decStr 50 ++ " @ ₹"
       ++ decStr 10,
     50, 10, 500⟩], 10, 12⟩

/-- An active lease held by tenant 6 on room 2. -/
def c6lease : Lease := ⟨3, 6, 2, ⟨2024, 1, 10⟩, none, 100, 0, 1, .active⟩

/-- Store with an occupied room already holding an active lease. -/
def c6db : DB :=
  ⟨[⟨2, "202", .occupied⟩], [⟨6, "Binod"⟩], [c6lease], [], [], [], [], 10, 40⟩

/-- Store with readings 100 (2024-01-15) and 150 (2024-02-15), rate 10.50. -/
def c7db : DB :=
  ⟨[⟨1, "101", .vacant⟩], [], [], [],
   [⟨1, 1, ⟨2024, 1, 15⟩, 100⟩, ⟨2, 1, ⟨2024, 2, 15⟩, 150⟩], [], [], 21/2, 10⟩

/-- Store with no reading before February, one reading 80 inside it,
and an arbitrary rate. -/
def c8db (r : ℚ) : DB :=
  ⟨[⟨1, "101", .vacant⟩], [], [], [], [⟨1, 1, ⟨2024, 2, 10⟩, 80⟩], [], [], r, 10⟩

/-- The active lease of the C9 badge scenario. -/
def c9lease : Lease := ⟨1, 5, 1, ⟨2023, 12, 1⟩, none, 100, 0, 1, .active⟩

/-- The only invoice of the C9 badge scenario: month 2024-01. -/
def c9invoice : Invoice := ⟨3, 1, ⟨2024, 1, 1⟩, .rent, 100, 0, 100, []⟩

/-- Store for the badge scenario: occupied room, active lease, one invoice,
no payments. -/
def c9db : DB :=
  ⟨[⟨1, "101", .occupied⟩], [⟨5, "Asha"⟩], [c9lease], [], [], [c9invoice], [], 10, 20⟩

/-- An ended lease (tenant 5) on room 1. -/
def c10ended : Lease :=
  ⟨1, 5, 1, ⟨2023, 1, 10⟩, some ⟨2023, 12, 1⟩, 100, 0, 1, .ended⟩

/-- A newer active lease (tenant 6) on the same room 1. -/
def c10active : Lease := ⟨2, 6, 1, ⟨2024, 1, 1⟩, none, 120, 0, 1, .active⟩

/-- Store where room 1 is occupied by `c10active` while the old `c10ended`
row still exists. -/
def c10db : DB :=
  ⟨[⟨1, "101", .occupied⟩], [⟨5, "Asha"⟩, ⟨6, "Ravi"⟩, ⟨7, "Neha"⟩],
   [c10ended, c10active], [], [], [], [], 10, 20⟩

/-! ### Basic lemmas -/

theorem Date.ltb_irrefl (a : Date) : a.ltb a = false := by
  simp [Date.ltb]

theorem Date.ltb_asymm {a b : Date} (h : a.ltb b = true) : b.ltb a = false := by
  cases a; cases b
  rw [← Bool.not_eq_true]
  simp only [Date.ltb, Bool.or_eq_true, Bool.and_eq_true, decide_eq_true_eq,
    beq_iff_eq] at h ⊢
  omega

theorem Date.ne_of_ltb {a b : Date} (h : a.ltb b = true) : a ≠ b := by
  intro hEq
  subst hEq
  rw [Date.ltb_irrefl] at h
  exact Bool.false_ne_true h

theorem Date.leb_eq_false_of_ltb {a b : Date} (h : a.ltb b = true) :
    b.leb a = false := by
  have h1 := Date.ltb_asymm h
  have h2 : a ≠ b := Date.ne_of_ltb h
  simp only [Date.leb, h1, Bool.false_or, beq_eq_false_iff_ne, ne_eq]
  exact fun hc => h2 hc.symm

theorem roundHalfUp2_zero : roundHalfUp2 0 = 0 := by
  unfold roundHalfUp2
  norm_num

theorem find?_map_setStatus (rid : Int) (st : RoomStatus) (rs : List Room) :
    ((rs.map fun r => if r.id == rid then { r with status := st } else r).find?
        fun r => r.id == rid)
      = (rs.find? fun r => r.id == rid).map
          (fun r => { r with status := st }) := by
  induction rs with
  | nil => rfl
  | cons r tl ih =>
    by_cases h : (r.id == rid) = true
    · have h' : (({ r with status := st } : Room).id == rid) = true := h
      rw [List.map_cons, if_pos h,
        List.find?_cons_of_pos (p := fun r : Room => r.id == rid) _ h',
        List.find?_cons_of_pos (p := fun r : Room => r.id == rid) _ h]
      rfl
    · rw [List.map_cons, if_neg h,
        List.find?_cons_of_neg (p := fun r : Room => r.id == rid) _ h,
        List.find?_cons_of_neg (p := fun r : Room => r.id == rid) _ h]
      exact ih

theorem roomStatus_setRoomStatus (db : DB) (rid : Int) (st : RoomStatus) :
    roomStatus (setRoomStatus db rid st) rid =
      (roomStatus db rid).map (fun _ => st) := by
  unfold roomStatus setRoomStatus
  rw [find?_map_setStatus]
  cases db.rooms.find? (fun r => r.id == rid) <;> rfl

theorem save_update_ended (db : DB) (l : Lease)
    (hended : l.status = LeaseStatus.ended)
    (hdate : (match l.end_date with
      | some e => e.leb l.start_date
      | none => false) = false) :
    Lease.save db l false = .ok (endedSaveResult db l) := by
  simp only [Lease.save, Lease.clean, hdate, hended, Bool.false_eq_true,
    if_false, Bool.and_false, Bool.and_true, Bool.not_false, endedSaveResult,
    setRoomStatus]
  rfl

/-! ### The claims -/

/-- C2: when the delta between the previous and current readings is
negative, `calc_month_bill` does not raise: it returns a result carrying the
previous and current readings, zero units, zero total, and the embedded
error message; `generate_electricity_invoice` then fails with a validation
error and (by transaction rollback) creates no invoice. -/
theorem c2_negative_delta_soft_error (db : DB) (rid year month : Int)
    (room : Room) (p c : ℚ)
    (hroom : db.rooms.find? (fun r => r.id == rid) = some room)
    (hread : get_month_readings db rid year month = (some p, some c))
    (hneg : c < p)
    (hnoinv : db.invoices.find? (fun i =>
        i.room_id == rid && i.month == first_of_month year month
          && i.type == InvoiceType.electricity) = none) :
    calc_month_bill db rid year month
      = .ok ⟨rid, year, month, some p, some c, 0, db.rate, 0,
          some "Negative delta: current reading cannot be less than previous reading"⟩
    ∧ generate_electricity_invoice db rid year month
      = .error (.validation
          "Negative delta: current reading cannot be less than previous reading")
    ∧ runGenerateElectricityInvoice db rid year month = db := by
  have hcu : compute_units (some p) (some c) = .error
      "Negative delta: current reading cannot be less than previous reading" := by
    simp only [compute_units, if_pos (show c - p < 0 by linarith)]
  have hcalc : calc_month_bill db rid year month
      = .ok ⟨rid, year, month, some p, some c, 0, db.rate, 0,
          some "Negative delta: current reading cannot be less than previous reading"⟩ := by
    simp only [calc_month_bill, hroom, hread, compute_bill, hcu]
  have hgen : generate_electricity_invoice db rid year month
      = .error (.validation
          "Negative delta: current reading cannot be less than previous reading") := by
    simp only [generate_electricity_invoice, hroom, hnoinv, hcalc]
  exact ⟨hcalc, hgen, by simp only [runGenerateElectricityInvoice, hgen]⟩

/-- Witness for C2: room 1 of `c2db` has readings 100 then 90 for
February 2024, so the bill embeds the error and invoice creation fails. -/
theorem c2_negative_delta_soft_error_witness :
    calc_month_bill c2db 1 2024 2
      = .ok ⟨1, 2024, 2, some 100, some 90, 0, 21/2, 0,
          some "Negative delta: current reading cannot be less than previous reading"⟩
    ∧ generate_electricity_invoice c2db 1 2024 2
      = .error (.validation
          "Negative delta: current reading cannot be less than previous reading")
    ∧ runGenerateElectricityInvoice c2db 1 2024 2 = c2db :=
  c2_negative_delta_soft_error c2db 1 2024 2 ⟨1, "101", .vacant⟩ 100 90
    rfl rfl (by norm_num) rfl

/-- C3 counterexample: `c3lease` is active and the end date 2024-01-10
equals its start date (so `endDate ≥ startDate` holds), yet `end_lease`
fails with a validation error instead of succeeding, because `Lease.clean`
demands a strictly later end date. -/
theorem c3_end_date_equal_start_fails :
    c3db.leases.find? (fun x => x.id == 1) = some c3lease
    ∧ c3lease.status = LeaseStatus.active
    ∧ c3lease.start_date.leb ⟨2024, 1, 10⟩ = true
    ∧ end_lease c3db 1 ⟨2024, 1, 10⟩
        = .error (.validation "End date must be after start date.") :=
  ⟨rfl, rfl, rfl, rfl⟩

/-- C3 (amended): `end_lease` succeeds exactly when the lease is active and
`endDate > startDate` (strictly), ending the lease and vacating the room;
a non-active lease fails with the invalid-state error, `endDate < startDate`
fails with the service's validation error, and `endDate = startDate` fails
with the model validation error raised by `Lease.clean`. -/
theorem c3_end_lease_spec (db : DB) (lid : Int) (l : Lease) (ed : Date)
    (hfind : db.leases.find? (fun x => x.id == lid) = some l)
    (hroom : (roomStatus db l.room_id).isSome = true) :
    (l.status = .active → l.start_date.ltb ed = true →
      ∃ db', end_lease db lid ed
          = .ok (db', { l with status := LeaseStatus.ended, end_date := some ed })
        ∧ roomStatus db' l.room_id = some RoomStatus.vacant)
    ∧ (l.status ≠ .active →
      end_lease db lid ed = .error (.invalidState "Lease is not active"))
    ∧ (l.status = .active → ed.ltb l.start_date = true →
      end_lease db lid ed
        = .error (.validation "End date cannot be before start date"))
    ∧ (l.status = .active → ed = l.start_date →
      end_lease db lid ed
        = .error (.validation "End date must be after start date.")) := by
  refine ⟨?_, ?_, ?_, ?_⟩
  · intro hact hlt
    have hbne : (l.status != LeaseStatus.active) = false := by rw [hact]; rfl
    have hltb : ed.ltb l.start_date = false := Date.ltb_asymm hlt
    have hleb : ed.leb l.start_date = false := Date.leb_eq_false_of_ltb hlt
    have hsave := save_update_ended db
      { l with status := LeaseStatus.ended, end_date := some ed } rfl hleb
    refine ⟨setRoomStatus
        (endedSaveResult db
          { l with status := LeaseStatus.ended, end_date := some ed })
        l.room_id RoomStatus.vacant, ?_, ?_⟩
    · simp only [end_lease, hfind, hbne, Bool.false_eq_true, if_false, hltb,
        hsave]
    · obtain ⟨st, hst⟩ := Option.isSome_iff_exists.mp hroom
      have e1 := roomStatus_setRoomStatus db l.room_id RoomStatus.vacant
      rw [hst] at e1
      have e2 : roomStatus
          (endedSaveResult db
            { l with status := LeaseStatus.ended, end_date := some ed })
          l.room_id = some RoomStatus.vacant := e1
      have e3 := roomStatus_setRoomStatus
        (endedSaveResult db
          { l with status := LeaseStatus.ended, end_date := some ed })
        l.room_id RoomStatus.vacant
      rw [e2] at e3
      simpa using e3
  · intro hne
    have hbne : (l.status != LeaseStatus.active) = true := by
      cases hs : l.status
      · exact absurd hs hne
      · rfl
    simp only [end_lease, hfind, hbne, if_true]
  · intro hact hltb
    have hbne : (l.status != LeaseStatus.active) = false := by rw [hact]; rfl
    simp only [end_lease, hfind, hbne, Bool.false_eq_true, if_false, hltb,
      if_true]
  · intro hact heq
    have hbne : (l.status != LeaseStatus.active) = false := by rw [hact]; rfl
    have hltb : ed.ltb l.start_date = false := by
      rw [heq]; exact Date.ltb_irrefl _
    have hleb : ed.leb l.start_date = true := by
      simp [Date.leb, heq]
    simp only [end_lease, hfind, hbne, Bool.false_eq_true, if_false, hltb,
      Lease.save, Lease.clean, hleb, if_true]

/-- Witness for C3: ending `c3lease` one day after its start succeeds and
vacates room 1. -/
theorem c3_end_lease_spec_witness :
    ∃ db', end_lease c3db 1 ⟨2024, 1, 11⟩
        = .ok (db',
          { c3lease with status := LeaseStatus.ended,
                         end_date := some ⟨2024, 1, 11⟩ })
      ∧ roomStatus db' 1 = some RoomStatus.vacant :=
  (c3_end_lease_spec c3db 1 c3lease ⟨2024, 1, 11⟩ rfl rfl).1 rfl rfl

/-- C4 counterexample: with rent 100, 50 units and rate 10 the electricity
amount is 500 > 0, yet the invoice that `create_monthly_invoice` creates has
type `rent`, not `combined`. -/
theorem c4_type_never_combined :
    (create_monthly_invoice c4db 1 ⟨2024, 2, 1⟩ 100 (some 50) (some 10)).map
        (fun res => (res.2.type, res.2.subtotal))
      = .ok (InvoiceType.rent, 600)
    ∧ electricityAmount (some 50) (some 10) = 500
    ∧ InvoiceType.rent ≠ InvoiceType.combined := by
  refine ⟨?_, by norm_num [electricityAmount, truthy], by decide⟩
  norm_num [create_monthly_invoice, c4db, invoiceObjectsCreate,
    invoiceItemCreate, electricityAmount, truthy, Except.map]

/-- C4 (amended): `create_monthly_invoice` computes
subtotal = rent + units × rate when both electricity inputs are given
(0 otherwise), creates one rent item plus one electricity item exactly when
the electricity amount is positive — but the invoice's type is always
`rent`, never `combined`. -/
theorem c4_create_monthly_invoice_spec (db : DB) (rid : Int) (month : Date)
    (rent : ℚ) (eu er : Option ℚ) (db' : DB) (inv : Invoice)
    (h : create_monthly_invoice db rid month rent eu er = .ok (db', inv)) :
    inv.type = InvoiceType.rent
    ∧ inv.subtotal = rent + electricityAmount eu er
    ∧ inv.total = inv.subtotal
    ∧ (∀ u r, eu = some u → er = some r → inv.subtotal = rent + u * r)
    ∧ db'.invoice_items = db.invoice_items
        ++ ⟨db.next_id + 1, inv.id, "Rent for " ++ monthYearStr month,
              1, rent, rent⟩
          :: (if 0 < electricityAmount eu er then
              [⟨db.next_id + 2, inv.id,
                "Electricity (" ++ decStr (eu.getD 0) ++ " units)",
                eu.getD 0, er.getD 0, electricityAmount eu er⟩]
            else []) := by
  simp only [create_monthly_invoice, invoiceObjectsCreate,
    invoiceItemCreate] at h
  by_cases hex : (db.invoices.any fun i =>
      i.room_id == rid && i.month == month
        && i.type == InvoiceType.rent) = true
  · rw [if_pos hex] at h
    exact absurd h (by simp)
  · rw [if_neg hex] at h
    simp only [Except.ok.injEq, Prod.mk.injEq] at h
    obtain ⟨hdb, hinv⟩ := h
    subst hdb
    subst hinv
    refine ⟨rfl, rfl, rfl, ?_, ?_⟩
    · intro u r hu hr
      subst hu
      subst hr
      show rent + electricityAmount (some u) (some r) = rent + u * r
      by_cases hu0 : u = 0
      · simp [electricityAmount, truthy, hu0]
      · by_cases hr0 : r = 0
        · simp [electricityAmount, truthy, hr0]
        · simp [electricityAmount, truthy, hu0, hr0]
    · by_cases h0 : 0 < electricityAmount eu er
      · simp only [if_pos h0, List.append_assoc, List.cons_append,
          List.nil_append, List.singleton_append]
        have hid : db.next_id + 1 + 1 = db.next_id + 2 := by omega
        rw [hid]
      · simp only [if_neg h0]

/-- Witness for C4 at rent 100, 50 units, rate 10 on `c4db`. -/
theorem c4_create_monthly_invoice_spec_witness :
    c4inv.type = InvoiceType.rent
    ∧ c4inv.subtotal = 100 + electricityAmount (some 50) (some 10)
    ∧ c4inv.total = c4inv.subtotal
    ∧ c4db'.invoice_items = c4db.invoice_items
        ++ ⟨c4db.next_id + 1, c4inv.id,
              "Rent for " ++ monthYearStr ⟨2024, 2, 1⟩, 1, 100, 100⟩
          :: (if 0 < electricityAmount (some 50) (some 10) then
              [⟨c4db.next_id + 2, c4inv.id,
                "Electricity (" ++ decStr ((some (50 : ℚ)).getD 0) ++ " units)",
                (some (50 : ℚ)).getD 0, (some (10 : ℚ)).getD 0,
                electricityAmount (some 50) (some 10)⟩]
            else []) := by
  have h : create_monthly_invoice c4db 1 ⟨2024, 2, 1⟩ 100 (some 50) (some 10)
      = .ok (c4db', c4inv) := by
    norm_num [create_monthly_invoice, c4db, c4db', c4inv,
      invoiceObjectsCreate, invoiceItemCreate, electricityAmount, truthy]
  have hmain := c4_create_monthly_invoice_spec c4db 1 ⟨2024, 2, 1⟩ 100
    (some 50) (some 10) c4db' c4inv h
  exact ⟨hmain.1, hmain.2.1, hmain.2.2.1, hmain.2.2.2.2⟩

/-- C5: `generate_electricity_invoice` is idempotent on `(room, month)`:
after a successful call, the store holds exactly one electricity invoice for
that room and month, and a second identical call returns that invoice's id
with the store unchanged. -/
theorem c5_electricity_invoice_idempotent (db : DB) (rid year month : Int)
    (db1 : DB) (r1 : ElecInvoiceResponse)
    (hcount : db.invoices.countP (fun i =>
        i.room_id == rid && i.month == first_of_month year month
          && i.type == InvoiceType.electricity) ≤ 1)
    (h1 : generate_electricity_invoice db rid year month = .ok (db1, r1)) :
    generate_electricity_invoice db1 rid year month
      = .ok (db1, ⟨"Invoice already exists", r1.invoice_id⟩)
    ∧ db1.invoices.countP (fun i =>
        i.room_id == rid && i.month == first_of_month year month
          && i.type == InvoiceType.electricity) = 1 := by
  cases hfr : db.rooms.find? (fun r => r.id == rid) with
  | none =>
    rw [generate_electricity_invoice, hfr] at h1
    exact absurd h1 (by simp)
  | some room =>
    cases hfind : db.invoices.find? (fun i =>
        i.room_id == rid && i.month == first_of_month year month
          && i.type == InvoiceType.electricity) with
    | some ex =>
      rw [generate_electricity_invoice, hfr] at h1
      simp only [hfind, Except.ok.injEq, Prod.mk.injEq] at h1
      obtain ⟨hdb, hr⟩ := h1
      subst hdb
      subst hr
      have hmem := List.mem_of_find?_eq_some hfind
      have hp := List.find?_some hfind
      have hpos : 0 < db.invoices.countP (fun i =>
          i.room_id == rid && i.month == first_of_month year month
            && i.type == InvoiceType.electricity) :=
        List.countP_pos_iff.mpr ⟨ex, hmem, hp⟩
      refine ⟨?_, by omega⟩
      rw [generate_electricity_invoice, hfr]
      simp only [hfind]
    | none =>
      rw [generate_electricity_invoice, hfr] at h1
      simp only [hfind] at h1
      cases hbill : calc_month_bill db rid year month with
      | error e => simp [hbill] at h1
      | ok bill =>
        simp only [hbill] at h1
        cases herr : bill.error with
        | some e => simp [herr] at h1
        | none =>
          simp only [herr] at h1
          have hany : (db.invoices.any fun i =>
              i.room_id == rid && i.month == first_of_month year month
                && i.type == InvoiceType.electricity) = false := by
            rw [List.any_eq_false]
            exact List.find?_eq_none.mp hfind
          simp only [invoiceObjectsCreate, hany, Bool.false_eq_true, if_false,
            invoiceItemCreate, Except.ok.injEq, Prod.mk.injEq] at h1
          obtain ⟨hdb, hr⟩ := h1
          subst hdb
          subst hr
          have hc0 : db.invoices.countP (fun i =>
              i.room_id == rid && i.month == first_of_month year month
                && i.type == InvoiceType.electricity) = 0 :=
            List.countP_eq_zero.mpr (List.find?_eq_none.mp hfind)
          constructor
          · rw [generate_electricity_invoice]
            simp only [hfr, List.find?_append, hfind, Option.none_or,
              List.find?_cons, beq_self_eq_true, Bool.and_true, Bool.and_self]
          · simp [List.countP_append, hc0, List.countP_cons]

/-- Witness for C5: the first call on `c5db` creates invoice 10; the second
call returns it unchanged and exactly one electricity invoice exists. -/
theorem c5_electricity_invoice_idempotent_witness :
    generate_electricity_invoice c5db1 1 2024 2
      = .ok (c5db1, ⟨"Invoice already exists", 10⟩)
    ∧ c5db1.invoices.countP (fun i =>
        i.room_id == 1 && i.month == first_of_month 2024 2
          && i.type == InvoiceType.electricity) = 1 := by
  have h1 : generate_electricity_invoice c5db 1 2024 2
      = .ok (c5db1, ⟨"Invoice created successfully", 10⟩) := by
    norm_num [generate_electricity_invoice, c5db, c5db1, calc_month_bill,
      get_month_readings, latestReading, first_of_month, first_of_next_month,
      compute_bill, compute_units, roundHalfUp2, invoiceObjectsCreate,
      invoiceItemCreate, truthy, Date.ltb, Date.leb]
  exact c5_electricity_invoice_idempotent c5db 1 2024 2 c5db1
    ⟨"Invoice created successfully", 10⟩ (by norm_num [c5db]) h1

/-- C6: `create_lease` on a room that already has an active lease fails with
the conflict error naming the tenant who holds that lease, and the store is
unchanged afterwards (rollback). -/
theorem c6_create_lease_conflict (db : DB) (tid rid : Int) (sd : Date)
    (mr dep : ℚ) (bd : Int) (room : Room) (ex : Lease) (t : Tenant)
    (hroom : db.rooms.find? (fun r => r.id == rid) = some room)
    (hex : db.leases.find? (fun l =>
        l.room_id == rid && l.status == LeaseStatus.active) = some ex)
    (ht : db.tenants.find? (fun x => x.id == ex.tenant_id) = some t) :
    create_lease db tid rid sd mr dep bd
      = .error (.conflict ("Room " ++ room.room_number
          ++ " already has an active lease with " ++ t.full_name))
    ∧ runCreateLease db tid rid sd mr dep bd = db := by
  have h1 : create_lease db tid rid sd mr dep bd
      = .error (.conflict ("Room " ++ room.room_number
          ++ " already has an active lease with " ++ t.full_name)) := by
    simp only [create_lease, hroom, hex, ht]
  exact ⟨h1, by simp only [runCreateLease, h1]⟩

/-- Witness for C6: room 202 of `c6db` is already leased to Binod, so a new
lease on it is rejected with a message naming Binod and the store stays
as it was. -/
theorem c6_create_lease_conflict_witness :
    create_lease c6db 9 2 ⟨2024, 5, 1⟩ 100 0 1
      = .error (.conflict ("Room " ++ "202"
          ++ " already has an active lease with " ++ "Binod"))
    ∧ runCreateLease c6db 9 2 ⟨2024, 5, 1⟩ 100 0 1 = c6db :=
  c6_create_lease_conflict c6db 9 2 ⟨2024, 5, 1⟩ 100 0 1 ⟨2, "202", .occupied⟩
    c6lease ⟨6, "Binod"⟩ rfl rfl rfl

/-- C7: whenever `current ≥ previous`, `compute_bill` rounds
`units × rate` to two decimals half-up; in particular readings 100 and 150
with rate 10.50 yield units 50 and total 525.00 from `calc_month_bill` for
February 2024. -/
theorem c7_compute_bill_half_up (p c rate : ℚ) (h : p ≤ c) :
    compute_bill (some p) (some c) rate
      = .ok ⟨c - p, rate, roundHalfUp2 ((c - p) * rate)⟩
    ∧ calc_month_bill c7db 1 2024 2
      = .ok ⟨1, 2024, 2, some 100, some 150, 50, 21/2, 525, none⟩ := by
  constructor
  · have h' : ¬ (c - p < 0) := by linarith
    simp only [compute_bill, compute_units, if_neg h']
  · norm_num [calc_month_bill, c7db, get_month_readings, first_of_month,
      first_of_next_month, latestReading, compute_bill, compute_units,
      roundHalfUp2, Date.ltb, Date.leb]

/-- Witness for C7 at readings 100 ≤ 150 and rate 10.50. -/
theorem c7_compute_bill_half_up_witness :
    compute_bill (some (100 : ℚ)) (some 150) (21/2)
      = .ok ⟨150 - 100, 21/2, roundHalfUp2 ((150 - 100) * (21/2))⟩ :=
  (c7_compute_bill_half_up 100 150 (21/2) (by norm_num)).1

/-- C8: `compute_units` returns 0 whenever either reading is absent, and a
room with no prior reading (only 80 inside the month) bills zero units and
zero total with no embedded error, for every rate. -/
theorem c8_missing_reading_zero_units :
    (∀ x : Option ℚ,
      compute_units none x = .ok 0 ∧ compute_units x none = .ok 0)
    ∧ (∀ r : ℚ, calc_month_bill (c8db r) 1 2024 2
        = .ok ⟨1, 2024, 2, none, some 80, 0, r, 0, none⟩) := by
  constructor
  · intro x
    exact ⟨rfl, by cases x <;> rfl⟩
  · intro r
    have h : calc_month_bill (c8db r) 1 2024 2
        = .ok ⟨1, 2024, 2, none, some 80, 0, r, roundHalfUp2 (0 * r), none⟩ :=
      rfl
    rw [h, zero_mul, roundHalfUp2_zero]

/-- C9: for a room with an active lease and a most recent invoice, with no
rent payment of that lease in the invoice's calendar month, the badge is
Overdue once the reference date passes the due date (invoice month + 5
days), DueSoon inside the 3 days up to the due date, and OK otherwise or
when such a payment exists. -/
theorem c9_room_badge_spec (db : DB) (rid : Int) (today : Date) (room : Room)
    (al : Lease) (inv : Invoice)
    (hroom : db.rooms.find? (fun r => r.id == rid) = some room)
    (hal : db.leases.find? (fun l =>
        l.room_id == rid && l.status == LeaseStatus.active) = some al)
    (hinv : last_invoice_for db rid = some inv) :
    (payment_exists db al.id inv.month = true →
      compute_room_badge db rid today = some .ok)
    ∧ (payment_exists db al.id inv.month = false →
      (due_date_of inv.month).ltb today = true →
      compute_room_badge db rid today = some .overdue)
    ∧ (payment_exists db al.id inv.month = false →
      (due_date_of inv.month).ltb today = false →
      (minus3days (due_date_of inv.month)).ltb today = true →
      compute_room_badge db rid today = some .dueSoon)
    ∧ (payment_exists db al.id inv.month = false →
      (due_date_of inv.month).ltb today = false →
      (minus3days (due_date_of inv.month)).ltb today = false →
      compute_room_badge db rid today = some .ok) := by
  refine ⟨?_, ?_, ?_, ?_⟩
  · intro hpay
    simp only [compute_room_badge, hroom, hal, hinv, hpay, if_true]
  · intro hpay hdue
    simp only [compute_room_badge, hroom, hal, hinv, hpay, hdue,
      Bool.false_eq_true, if_false, if_true]
  · intro hpay hdue hsoon
    simp only [compute_room_badge, hroom, hal, hinv, hpay, hdue, hsoon,
      Bool.false_eq_true, if_false, if_true]
  · intro hpay hdue hsoon
    simp only [compute_room_badge, hroom, hal, hinv, hpay, hdue, hsoon,
      Bool.false_eq_true, if_false]

/-- Witness for C9 (Scenario D shape): the only invoice of `c9db` is dated
2024-01-01, no payment matches, and the reference date 2024-02-10 is well
past the January 6 due date, so the badge is Overdue. -/
theorem c9_room_badge_spec_witness :
    payment_exists c9db 1 c9invoice.month = false
    ∧ (due_date_of c9invoice.month).ltb ⟨2024, 2, 10⟩ = true
    ∧ compute_room_badge c9db 1 ⟨2024, 2, 10⟩ = some Badge.overdue :=
  ⟨rfl, rfl,
    (c9_room_badge_spec c9db 1 ⟨2024, 2, 10⟩ ⟨1, "101", .occupied⟩ c9lease
      c9invoice rfl rfl rfl).2.1 rfl rfl⟩

/-- C10: the save of a persisted lease whose status is ended unconditionally
sets the room's status to vacant, including `update_lease_tenant`'s
tenant-only reassignment, with no condition on other leases of the room
(so the room is vacated even while another active lease occupies it). -/
theorem c10_ended_save_vacates_room (db : DB) (lid tid : Int) (l : Lease)
    (st : RoomStatus)
    (hfind : db.leases.find? (fun x => x.id == lid) = some l)
    (hended : l.status = LeaseStatus.ended)
    (hdate : (match l.end_date with
      | some e => e.leb l.start_date
      | none => false) = false)
    (ht : (db.tenants.find? (fun x => x.id == tid)).isSome = true)
    (hroom : roomStatus db l.room_id = some st) :
    Lease.save db l false = .ok (endedSaveResult db l)
    ∧ roomStatus (endedSaveResult db l) l.room_id = some RoomStatus.vacant
    ∧ update_lease_tenant db lid (some tid)
        = .ok (endedSaveResult db { l with tenant_id := tid })
    ∧ roomStatus (endedSaveResult db { l with tenant_id := tid }) l.room_id
        = some RoomStatus.vacant
    ∧ (endedSaveResult db { l with tenant_id := tid }).leases
        = db.leases.map fun x =>
            if x.id == l.id then { l with tenant_id := tid } else x := by
  have hvac : roomStatus (endedSaveResult db l) l.room_id
      = some RoomStatus.vacant := by
    have e1 := roomStatus_setRoomStatus db l.room_id RoomStatus.vacant
    rw [hroom] at e1
    exact e1
  have hvac2 : roomStatus (endedSaveResult db { l with tenant_id := tid })
      l.room_id = some RoomStatus.vacant := by
    have e1 := roomStatus_setRoomStatus db l.room_id RoomStatus.vacant
    rw [hroom] at e1
    exact e1
  have hsave2 := save_update_ended db { l with tenant_id := tid } hended hdate
  refine ⟨save_update_ended db l hended hdate, hvac, ?_, hvac2, rfl⟩
  obtain ⟨t, htt⟩ := Option.isSome_iff_exists.mp ht
  simp only [update_lease_tenant, hfind, htt, hsave2]

/-- Witness for C10: in `c10db` room 1 is occupied and also holds the active
lease `c10active`, yet reassigning the tenant of the ended lease `c10ended`
marks room 1 vacant. -/
theorem c10_ended_save_vacates_room_witness :
    roomStatus c10db 1 = some RoomStatus.occupied
    ∧ activeCount c10db 1 = 1
    ∧ update_lease_tenant c10db 1 (some 7)
        = .ok (endedSaveResult c10db { c10ended with tenant_id := 7 })
    ∧ roomStatus (endedSaveResult c10db { c10ended with tenant_id := 7 }) 1
        = some RoomStatus.vacant :=
  ⟨rfl, rfl,
    (c10_ended_save_vacates_room c10db 1 7 c10ended RoomStatus.occupied
      rfl rfl rfl rfl rfl).2.2.1,
    (c10_ended_save_vacates_room c10db 1 7 c10ended RoomStatus.occupied
      rfl rfl rfl rfl rfl).2.2.2.1⟩

theorem clean_new_active {db : DB} {l : Lease} {u : Unit}
    (h : Lease.clean db l true = .ok u) (hact : l.status = LeaseStatus.active) :
    (db.leases.any fun x =>
      x.room_id == l.room_id && x.status == LeaseStatus.active) = false := by
  by_cases hd : (match l.end_date with
      | some e => e.leb l.start_date
      | none => false) = true
  · rw [Lease.clean, if_pos hd] at h
    exact absurd h (by simp)
  · rw [Lease.clean, if_neg hd] at h
    have hc : (l.status == LeaseStatus.active && true) = true := by
      rw [hact]; rfl
    rw [if_pos hc] at h
    by_cases ha : (db.leases.any fun x =>
        x.room_id == l.room_id && x.status == LeaseStatus.active) = true
    · rw [if_pos ha] at h
      exact absurd h (by simp)
    · exact Bool.eq_false_iff.mpr ha

theorem clean_update_active {db : DB} {l : Lease} {u : Unit}
    (h : Lease.clean db l false = .ok u)
    (hact : l.status = LeaseStatus.active) :
    (db.leases.any fun x =>
      x.room_id == l.room_id && x.status == LeaseStatus.active
        && x.id != l.id) = false := by
  by_cases hd : (match l.end_date with
      | some e => e.leb l.start_date
      | none => false) = true
  · rw [Lease.clean, if_pos hd] at h
    exact absurd h (by simp)
  · rw [Lease.clean, if_neg hd] at h
    have hc1 : (l.status == LeaseStatus.active && false) = false := by
      rw [hact]; rfl
    rw [if_neg (by simp [hc1])] at h
    have hc2 : (l.status == LeaseStatus.active && !false) = true := by
      rw [hact]; rfl
    rw [if_pos hc2] at h
    by_cases ha : (db.leases.any fun x =>
        x.room_id == l.room_id && x.status == LeaseStatus.active
          && x.id != l.id) = true
    · rw [if_pos ha] at h
      exact absurd h (by simp)
    · exact Bool.eq_false_iff.mpr ha

theorem save_roomflip_leases (db : DB) (l : Lease) (isNew : Bool) :
    (if l.status == LeaseStatus.active && isNew then
        setRoomStatus db l.room_id RoomStatus.occupied
      else if l.status == LeaseStatus.ended && !isNew then
        setRoomStatus db l.room_id RoomStatus.vacant
      else db).leases = db.leases := by
  split
  · rfl
  · split
    · rfl
    · rfl

theorem save_roomflip_next_id (db : DB) (l : Lease) (isNew : Bool) :
    (if l.status == LeaseStatus.active && isNew then
        setRoomStatus db l.room_id RoomStatus.occupied
      else if l.status == LeaseStatus.ended && !isNew then
        setRoomStatus db l.room_id RoomStatus.vacant
      else db).next_id = db.next_id := by
  split
  · rfl
  · split
    · rfl
    · rfl

theorem save_new_ok {db : DB} {l : Lease} {db' : DB}
    (h : Lease.save db l true = .ok db') :
    db'.leases = db.leases ++ [l] ∧ db'.next_id = db.next_id
      ∧ Lease.clean db l true = .ok () := by
  cases hclean : Lease.clean db l true with
  | error e =>
    rw [Lease.save, hclean] at h
    exact absurd h (by simp)
  | ok u =>
    cases u
    simp only [Lease.save, hclean, Bool.false_eq_true, if_true, if_false,
      Except.ok.injEq] at h
    subst h
    refine ⟨?_, ?_, rfl⟩
    · show (if l.status == LeaseStatus.active && true then
          setRoomStatus db l.room_id RoomStatus.occupied
        else if l.status == LeaseStatus.ended && !true then
          setRoomStatus db l.room_id RoomStatus.vacant
        else db).leases ++ [l] = db.leases ++ [l]
      rw [save_roomflip_leases]
    · show (if l.status == LeaseStatus.active && true then
          setRoomStatus db l.room_id RoomStatus.occupied
        else if l.status == LeaseStatus.ended && !true then
          setRoomStatus db l.room_id RoomStatus.vacant
        else db).next_id = db.next_id
      rw [save_roomflip_next_id]

theorem save_update_ok {db : DB} {l : Lease} {db' : DB}
    (h : Lease.save db l false = .ok db') :
    db'.leases = db.leases.map (fun x => if x.id == l.id then l else x)
      ∧ db'.next_id = db.next_id
      ∧ Lease.clean db l false = .ok () := by
  cases hclean : Lease.clean db l false with
  | error e =>
    rw [Lease.save, hclean] at h
    exact absurd h (by simp)
  | ok u =>
    cases u
    simp only [Lease.save, hclean, Bool.false_eq_true, if_true, if_false,
      Except.ok.injEq] at h
    subst h
    refine ⟨?_, ?_, rfl⟩
    · show (if l.status == LeaseStatus.active && false then
          setRoomStatus db l.room_id RoomStatus.occupied
        else if l.status == LeaseStatus.ended && !false then
          setRoomStatus db l.room_id RoomStatus.vacant
        else db).leases.map _ = _
      rw [save_roomflip_leases]
    · show (if l.status == LeaseStatus.active && false then
          setRoomStatus db l.room_id RoomStatus.occupied
        else if l.status == LeaseStatus.ended && !false then
          setRoomStatus db l.room_id RoomStatus.vacant
        else db).next_id = db.next_id
      rw [save_roomflip_next_id]



theorem countP_insert_active_le (L : List Lease) (l : Lease) (rid : Int)
    (hinv : L.countP (fun x =>
      x.room_id == rid && x.status == LeaseStatus.active) ≤ 1)
    (hclean : l.status = LeaseStatus.active →
      (L.any fun x =>
        x.room_id == l.room_id && x.status == LeaseStatus.active) = false) :
    (L ++ [l]).countP (fun x =>
      x.room_id == rid && x.status == LeaseStatus.active) ≤ 1 := by
  rw [List.countP_append]
  by_cases hP : (l.room_id == rid && l.status == LeaseStatus.active) = true
  · have hact : l.status = LeaseStatus.active :=
      eq_of_beq (Bool.and_elim_right hP)
    have hrid : l.room_id = rid := eq_of_beq (Bool.and_elim_left hP)
    have hzero : L.countP (fun x =>
        x.room_id == rid && x.status == LeaseStatus.active) = 0 := by
      rw [List.countP_eq_zero]
      intro a ha
      have := List.any_eq_false.mp (hclean hact) a ha
      rw [hrid] at this
      exact this
    have hone : List.countP (fun x =>
        x.room_id == rid && x.status == LeaseStatus.active) [l] ≤ 1 := by
      simp [List.countP_cons, hP]
    omega
  · have hzero : List.countP (fun x =>
        x.room_id == rid && x.status == LeaseStatus.active) [l] = 0 := by
      simp [List.countP_cons, Bool.eq_false_iff.mpr hP]
    omega

theorem countP_update_le (L : List Lease) (l : Lease) (rid : Int)
    (hnodup : (L.map (·.id)).Nodup)
    (hinv : L.countP (fun x =>
      x.room_id == rid && x.status == LeaseStatus.active) ≤ 1)
    (hclean : l.status = LeaseStatus.active →
      (L.any fun x =>
        x.room_id == l.room_id && x.status == LeaseStatus.active
          && x.id != l.id) = false) :
    (L.map fun x => if x.id == l.id then l else x).countP (fun x =>
      x.room_id == rid && x.status == LeaseStatus.active) ≤ 1 := by
  rw [List.countP_map]
  by_cases hP : (l.room_id == rid && l.status == LeaseStatus.active) = true
  · have hact : l.status = LeaseStatus.active :=
      eq_of_beq (Bool.and_elim_right hP)
    have hrid : l.room_id = rid := eq_of_beq (Bool.and_elim_left hP)
    have hmono : L.countP ((fun x =>
          x.room_id == rid && x.status == LeaseStatus.active)
        ∘ fun x => if x.id == l.id then l else x)
        ≤ L.countP (fun x => x.id == l.id) := by
      apply List.countP_mono_left
      intro x hx hpx
      by_cases hid : (x.id == l.id) = true
      · exact hid
      · exfalso
        have hx1 : (x.room_id == rid && x.status == LeaseStatus.active)
            = true := by
          simpa only [Function.comp, hid, Bool.false_eq_true, if_false]
            using hpx
        have hne := List.any_eq_false.mp (hclean hact) x hx
        rw [hrid] at hne
        have hidf : (x.id == l.id) = false := Bool.eq_false_iff.mpr hid
        exact hne (by simp [hx1, bne, hidf])
    have hcount : L.countP (fun x => x.id == l.id) ≤ 1 := by
      have h1 : L.countP (fun x => x.id == l.id)
          = (L.map (·.id)).countP (fun b => b == l.id) := by
        rw [List.countP_map]
        rfl
      rw [h1, ← List.count_eq_countP']
      exact List.nodup_iff_count_le_one.mp hnodup l.id
    omega
  · apply le_trans _ hinv
    apply List.countP_mono_left
    intro x hx hpx
    by_cases hid : (x.id == l.id) = true
    · exfalso
      simp only [Function.comp, hid, if_true] at hpx
      exact hP hpx
    · simpa only [Function.comp, hid, Bool.false_eq_true, if_false] using hpx



theorem map_update_preserves_ids (L : List Lease) (l : Lease) :
    (L.map fun x => if x.id == l.id then l else x).map (·.id)
      = L.map (·.id) := by
  rw [List.map_map]
  apply List.map_congr_left
  intro x _
  by_cases h : (x.id == l.id) = true
  · simp only [Function.comp, h, if_true]
    exact (eq_of_beq h).symm
  · simp only [Function.comp, h, Bool.false_eq_true, if_false]

theorem invoiceObjectsCreate_ok {db : DB} {rid : Int} {m : Date}
    {ty : InvoiceType} {s t tot : ℚ} {meta : Meta} {db2 : DB} {inv : Invoice}
    (h : invoiceObjectsCreate db rid m ty s t tot meta = .ok (db2, inv)) :
    db2.leases = db.leases ∧ db.next_id ≤ db2.next_id := by
  by_cases hex : (db.invoices.any fun i =>
      i.room_id == rid && i.month == m && i.type == ty) = true
  · rw [invoiceObjectsCreate, if_pos hex] at h
    exact absurd h (by simp)
  · rw [invoiceObjectsCreate, if_neg hex] at h
    simp only [Except.ok.injEq, Prod.mk.injEq] at h
    obtain ⟨hdb, _⟩ := h
    subst hdb
    exact ⟨rfl, by dsimp only; omega⟩

theorem leaseObjectsCreate_wf {db : DB} {tid rid : Int} {sd : Date}
    {mr dep : ℚ} {bd : Int} {st : LeaseStatus} {db' : DB} {l : Lease}
    (hwf : WF db)
    (h : leaseObjectsCreate db tid rid sd mr dep bd st = .ok (db', l)) :
    WF db' ∧ db.next_id ≤ db'.next_id := by
  obtain ⟨hnodup, hfresh, hinv⟩ := hwf
  rw [leaseObjectsCreate] at h
  cases hs : Lease.save { db with next_id := db.next_id + 1 }
      ⟨db.next_id, tid, rid, sd, none, mr, dep, bd, st⟩ true with
  | error e => rw [hs] at h; exact absurd h (by simp)
  | ok dbS =>
    rw [hs] at h
    simp only [Except.ok.injEq, Prod.mk.injEq] at h
    obtain ⟨hdb, _⟩ := h
    subst hdb
    obtain ⟨hleases, hnext, hclean⟩ := save_new_ok hs
    constructor
    · refine ⟨?_, ?_, ?_⟩
      · show (dbS.leases.map (·.id)).Nodup
        rw [hleases, List.map_append]
        rw [List.nodup_append]
        refine ⟨hnodup, List.nodup_singleton _, ?_⟩
        intro a ha hb
        simp only [List.map_cons, List.map_nil, List.mem_singleton] at hb
        subst hb
        obtain ⟨x, hx, hxa⟩ := List.mem_map.mp ha
        have := hfresh x hx
        omega
      · intro x hx
        rw [hleases] at hx
        rw [hnext]
        rcases List.mem_append.mp hx with hx1 | hx1
        · have := hfresh x hx1
          dsimp only
          omega
        · rw [List.mem_singleton] at hx1
          subst hx1
          dsimp only
          omega
      · intro r
        show dbS.leases.countP _ ≤ 1
        rw [hleases]
        apply countP_insert_active_le _ _ _ (hinv r)
        intro hact
        exact clean_new_active hclean hact
    · rw [hnext]
      dsimp only
      omega



theorem save_existing_wf {db : DB} {l : Lease} {db' : DB} (hwf : WF db)
    (hmem : l.id ∈ db.leases.map (·.id))
    (h : Lease.save db l false = .ok db') :
    WF db' ∧ db.next_id ≤ db'.next_id := by
  obtain ⟨hnodup, hfresh, hinv⟩ := hwf
  obtain ⟨hleases, hnext, hclean⟩ := save_update_ok h
  constructor
  · refine ⟨?_, ?_, ?_⟩
    · show (db'.leases.map (·.id)).Nodup
      rw [hleases, map_update_preserves_ids]
      exact hnodup
    · intro x hx
      rw [hleases] at hx
      obtain ⟨y, hy, hyx⟩ := List.mem_map.mp hx
      rw [hnext]
      by_cases hid : (y.id == l.id) = true
      · rw [if_pos hid] at hyx
        subst hyx
        obtain ⟨z, hz, hzl⟩ := List.mem_map.mp hmem
        have := hfresh z hz
        omega
      · rw [if_neg hid] at hyx
        subst hyx
        exact hfresh y hy
    · intro r
      show db'.leases.countP _ ≤ 1
      rw [hleases]
      apply countP_update_le _ _ _ hnodup (hinv r)
      intro hact
      exact clean_update_active hclean hact
  · rw [hnext]



theorem wf_mono {db1 db2 : DB} (hwf : WF db1) (hleq : db2.leases = db1.leases)
    (hnle : db1.next_id ≤ db2.next_id) : WF db2 := by
  obtain ⟨hn, hf, hi⟩ := hwf
  refine ⟨?_, ?_, ?_⟩
  · show (db2.leases.map (·.id)).Nodup
    rw [hleq]
    exact hn
  · intro x hx
    rw [hleq] at hx
    have := hf x hx
    omega
  · intro r
    show db2.leases.countP _ ≤ 1
    rw [hleq]
    exact hi r

theorem create_lease_wf {db : DB} {tid rid : Int} {sd : Date} {mr dep : ℚ}
    {bd : Int} {db' : DB} {l : Lease} (hwf : WF db)
    (h : create_lease db tid rid sd mr dep bd = .ok (db', l)) : WF db' := by
  rw [create_lease] at h
  cases hfr : db.rooms.find? (fun r => r.id == rid) with
  | none => simp [hfr] at h
  | some room =>
    simp only [hfr] at h
    cases hfa : db.leases.find? (fun x =>
        x.room_id == rid && x.status == LeaseStatus.active) with
    | some ex => simp [hfa] at h
    | none =>
      simp only [hfa] at h
      split at h
      · exact absurd h (by simp)
      · split at h
        · exact absurd h (by simp)
        · cases hlo : leaseObjectsCreate db tid rid sd mr dep bd
              LeaseStatus.active with
          | error e => rw [hlo] at h; exact absurd h (by simp)
          | ok p =>
            obtain ⟨db1, lease⟩ := p
            simp only [hlo] at h
            cases hio : invoiceObjectsCreate
                (setRoomStatus db1 rid RoomStatus.occupied) rid
                ⟨sd.year, sd.month, 1⟩ InvoiceType.rent mr 0 mr
                [("rent", some mr)] with
            | error e => simp only [hio] at h; exact absurd h (by simp)
            | ok q =>
              obtain ⟨db3, inv⟩ := q
              simp only [hio, Except.ok.injEq, Prod.mk.injEq] at h
              obtain ⟨hdb, hl⟩ := h
              subst hdb
              obtain ⟨hwf1, hn1⟩ := leaseObjectsCreate_wf hwf hlo
              obtain ⟨hleq3, hnle3⟩ := invoiceObjectsCreate_ok hio
              apply wf_mono hwf1
              · exact hleq3
              · have h1 : db1.next_id ≤ db3.next_id := hnle3
                show db1.next_id ≤ db3.next_id + 1
                omega



theorem end_lease_wf {db : DB} {lid : Int} {ed : Date} {db' : DB} {l : Lease}
    (hwf : WF db) (h : end_lease db lid ed = .ok (db', l)) : WF db' := by
  rw [end_lease] at h
  cases hfind : db.leases.find? (fun x => x.id == lid) with
  | none => simp [hfind] at h
  | some lease =>
    simp only [hfind] at h
    split at h
    · exact absurd h (by simp)
    · split at h
      · exact absurd h (by simp)
      · cases hs : Lease.save db
            { lease with status := LeaseStatus.ended, end_date := some ed }
            false with
        | error e => rw [hs] at h; exact absurd h (by simp)
        | ok dbS =>
          simp only [hs, Except.ok.injEq, Prod.mk.injEq] at h
          obtain ⟨hdb, _⟩ := h
          subst hdb
          have hmem :
              ({ lease with
                  status := LeaseStatus.ended,
                  end_date := some ed } : Lease).id
                ∈ db.leases.map (·.id) := by
            show lease.id ∈ db.leases.map (·.id)
            exact List.mem_map.mpr ⟨lease, List.mem_of_find?_eq_some hfind, rfl⟩
          obtain ⟨hwfS, hnS⟩ := save_existing_wf hwf hmem hs
          exact wf_mono hwfS rfl (le_refl _)

theorem update_lease_tenant_wf {db : DB} {lid : Int} {tidOpt : Option Int}
    {db' : DB} (hwf : WF db)
    (h : update_lease_tenant db lid tidOpt = .ok db') : WF db' := by
  rw [update_lease_tenant] at h
  cases hfind : db.leases.find? (fun x => x.id == lid) with
  | none => simp [hfind] at h
  | some lease =>
    simp only [hfind] at h
    cases tidOpt with
    | none =>
      simp only [Except.ok.injEq] at h
      subst h
      exact hwf
    | some tid =>
      cases ht : db.tenants.find? (fun x => x.id == tid) with
      | none =>
        simp only [ht, Except.ok.injEq] at h
        subst h
        exact hwf
      | some t =>
        simp only [ht] at h
        have hmem : ({ lease with tenant_id := tid } : Lease).id
            ∈ db.leases.map (·.id) := by
          show lease.id ∈ db.leases.map (·.id)
          exact List.mem_map.mpr ⟨lease, List.mem_of_find?_eq_some hfind, rfl⟩
        exact (save_existing_wf hwf hmem h).1

theorem wf_step {db db' : DB} (hwf : WF db) (h : Step db db') : WF db' := by
  cases h with
  | createLease tid rid sd mr dep bd db2 l heq => exact create_lease_wf hwf heq
  | endLease lid ed db2 l heq => exact end_lease_wf hwf heq
  | saveNew tid rid sd mr dep bd st db2 l heq =>
    exact (leaseObjectsCreate_wf hwf heq).1
  | saveExisting l db2 hmem heq => exact (save_existing_wf hwf hmem heq).1
  | updateTenant lid tid db2 heq => exact update_lease_tenant_wf hwf heq
  | nonLease db2 hleq hnle => exact wf_mono hwf hleq hnle

theorem wf_reachable {db : DB} (h : Reachable db) : WF db := by
  induction h with
  | init db hleases =>
    refine ⟨?_, ?_, ?_⟩
    · show (db.leases.map (·.id)).Nodup
      rw [hleases]
      exact List.nodup_nil
    · intro x hx
      rw [hleases] at hx
      exact absurd hx (List.not_mem_nil x)
    · intro r
      show db.leases.countP _ ≤ 1
      rw [hleases]
      simp
  | step db db' hr hs ih => exact wf_step ih hs

/-- C1: in every reachable state, each room has at most one lease with
status active, and every core operation (create, end, model-level save,
tenant reassignment, and lease-untouching operations) preserves this
invariant. -/
theorem c1_at_most_one_active_lease (db : DB) (h : Reachable db) :
    activeLeaseInvariant db
    ∧ (∀ db', Step db db' → activeLeaseInvariant db') :=
  ⟨(wf_reachable h).2.2, fun _ hs => (wf_step (wf_reachable h) hs).2.2⟩

/-- Witness for C1: the state reached from the fresh store `c1db0` by one
successful `create_lease` satisfies the invariant. -/
theorem c1_at_most_one_active_lease_witness :
    activeCount c1db1 1 ≤ 1 ∧ activeCount c1db1 2 ≤ 1 := by
  have hcr : create_lease c1db0 5 1 ⟨2024, 1, 1⟩ 100 0 1
      = .ok (c1db1, c1lease) := by
    norm_num [create_lease, c1db0, c1db1, c1lease, leaseObjectsCreate,
      Lease.save, Lease.clean, setRoomStatus, invoiceObjectsCreate,
      invoiceItemCreate, monthYearStr, monthName, first_of_month]
  have hreach : Reachable c1db1 :=
    Reachable.step c1db0 c1db1 (Reachable.init c1db0 rfl)
      (Step.createLease c1db0 5 1 ⟨2024, 1, 1⟩ 100 0 1 c1db1 c1lease hcr)
  exact ⟨(c1_at_most_one_active_lease c1db1 hreach).1 1, (c1_at_most_one_active_lease c1db1 hreach).1 2⟩

end Tenent
